import Mathlib

/-!
# Verification of the MAM signed-packet core (`iota_mam`)

Shallow embedding of the repository's signed-packet message template and of the
PB3 `absorb` command, together with models of the collaborators that the
sampled sources use but do not contain (`spongos`, `trits`, `mss`, the PB3
`join`/`mask`/`mssig` commands).  Trits are modelled as `ZMod 3`; trit buffers
as `List Trit`.  A wrap pass is modelled as emitting the list of trits it
writes; an unwrap pass threads the remaining input list explicitly and returns
a `Result`.
-/

/-- A balanced trit, modelled as an element of `ZMod 3` (the balanced and
unbalanced representations are isomorphic; only arithmetic mod 3 matters). -/
abbrev Trit := ZMod 3

/-- A tryte value (`trits::Trint3` in the source is a value in `-13..=13`;
modelled by the isomorphic `ZMod 27`). -/
abbrev Trint3 := ZMod 27

/-- Write a tryte value as its three base-3 trit digits
(`TritSliceMut::put3` of the external `trits` crate). -/
def put3 (d : Trint3) : List Trit :=
  [((d.val % 3 : Nat) : Trit), ((d.val / 3 % 3 : Nat) : Trit), ((d.val / 9 : Nat) : Trit)]

/-- Read a tryte value back from three trit digits (`TritSlice::get3`). -/
def get3 (b : List Trit) : Trint3 :=
  (((b.getD 0 0).val + 3 * (b.getD 1 0).val + 9 * (b.getD 2 0).val : Nat) : Trint3)

/-- Width of the modelled sponge state in trits. -/
def stateLen : Nat := 27

/-- Modelled from the spec: `src/` lacks `spongos.rs`; the spec describes a
fixed-size ternary register mutated in place by `absorb`, `mask`/`unmask`,
`squeeze`, `commit` and `join`.  The concrete mixing function below is a
deterministic rotate-and-add placeholder; every theorem in this file depends
only on its determinism, never on cryptographic strength. -/
structure Spongos where
  st : List Trit
deriving DecidableEq

/-- Fresh sponge state (`Spongos::init`). -/
def Spongos.init : Spongos := ⟨List.replicate stateLen 0⟩

/-- The outer (rate) trit currently exposed by the state. -/
def Spongos.outTrit (s : Spongos) : Trit := s.st.headI

/-- Mix one trit into the state and advance the register. -/
def Spongos.absorbTrit (s : Spongos) (x : Trit) : Spongos :=
  ⟨s.st.tail ++ [s.st.headI + x]⟩

/-- Modelled from the spec: `absorb(input)` mixes `input` into state, output
discarded. -/
def Spongos.absorb (s : Spongos) (t : List Trit) : Spongos :=
  t.foldl Spongos.absorbTrit s

/-- Modelled from the spec: `commit()` irreversibly advances internal state
without producing output. -/
def Spongos.commit (s : Spongos) : Spongos := s.absorbTrit 1

/-- Modelled from the spec: `squeeze(length)` extracts `length` trits of
output derived from the state. -/
def Spongos.squeeze : Spongos → Nat → List Trit
  | _, 0 => []
  | s, n + 1 => s.outTrit :: Spongos.squeeze (s.absorbTrit 0) n

/-- Modelled from the spec: `mask(plain) -> cipher`, a keystream combination
derived from current state, which then absorbs the plaintext
(`Spongos::encr`). -/
def Spongos.encr : Spongos → List Trit → Spongos × List Trit
  | s, [] => (s, [])
  | s, x :: xs =>
    let c := x + s.outTrit
    let r := Spongos.encr (s.absorbTrit x) xs
    (r.1, c :: r.2)

/-- Modelled from the spec: `unmask(cipher) -> plain`, the inverse of `mask`
(`Spongos::decr`). -/
def Spongos.decr : Spongos → List Trit → Spongos × List Trit
  | s, [] => (s, [])
  | s, c :: cs =>
    let p := c - s.outTrit
    let r := Spongos.decr (s.absorbTrit p) cs
    (r.1, p :: r.2)

/-- Modelled from the spec: `join` forks the linked state and mixes the
forked branch's authenticated context into the current state. -/
def Spongos.join (s : Spongos) (x : Spongos) : Spongos :=
  s.absorb (x.squeeze stateLen)

/-- PB3 error kinds (`pb3::err::Err`): `Eof` is named in `src/pb3/cmd/absorb.rs`;
the remaining kinds are modelled from the spec's error list (`EndOfBuffer`,
`UnresolvedLink`, `SignatureInvalid`, `MalformedValue`). -/
inductive Err where
  | Eof
  | UnresolvedLink
  | SignatureInvalid
  | MalformedValue
deriving DecidableEq

/-- `pb3::Result`, the result type of every fallible unwrap step. -/
inductive Result (α : Type) where
  | ok (v : α)
  | err (e : Err)
deriving DecidableEq

/-- Sequencing of fallible unwrap steps (Rust's `?` operator). -/
def Result.bind {α β : Type} (r : Result α) (f : α → Result β) : Result β :=
  match r with
  | .ok v => f v
  | .err e => .err e

/-- Bounds-checked cursor advance on the input slice: take `n` trits from the
remaining buffer or fail with `Eof` (the `guard(n <= b.size(), Err::Eof)`
followed by `b.advance(n)` pattern of the source). -/
def readTrits (n : Nat) (b : List Trit) : Result (List Trit × List Trit) :=
  if n ≤ b.length then .ok (b.take n, b.drop n) else .err .Eof

/-- `pb3::cmd::absorb` wrap implementation (`impl Wrap for WrapAbsorb`),
`wrap3`: encode the tryte at the cursor and absorb the codeword.  The emitted
trits are returned alongside the updated sponge. -/
def WrapAbsorb.wrap3 (s : Spongos) (d : Trint3) : Spongos × List Trit :=
  let b0 := put3 d
  (s.absorb b0, b0)

/-- `pb3::cmd::absorb` wrap implementation, `wrapn`: absorb the trits and copy
them into the buffer. -/
def WrapAbsorb.wrapn (s : Spongos) (t : List Trit) : Spongos × List Trit :=
  (s.absorb t, t)

/-- `pb3::cmd::absorb` unwrap implementation (`impl Unwrap for WrapAbsorb`),
`unwrap3`: guard that three trits remain, absorb the codeword and decode the
tryte. -/
def WrapAbsorb.unwrap3 (s : Spongos) (b : List Trit) : Result (Trint3 × Spongos × List Trit) :=
  (readTrits 3 b).bind fun b0 => .ok (get3 b0.1, s.absorb b0.1, b0.2)

/-- `pb3::cmd::absorb` unwrap implementation, `unwrapn`: guard that the target's
size fits in the remaining buffer, copy the trits out and absorb them.  `n` is
the size of the target slice `t`. -/
def WrapAbsorb.unwrapn (s : Spongos) (n : Nat) (b : List Trit) :
    Result (List Trit × Spongos × List Trit) :=
  (readTrits n b).bind fun t => .ok (t.1, s.absorb t.1, t.2)

/-- `AbsorbExternal::wrap_absorb_external` from `src/pb3/cmd/absorb.rs`: mixes
the value's trit slice into the sponge; there is no buffer parameter, so no
wire trits are consumed or produced. -/
def wrap_absorb_external (x : List Trit) (s : Spongos) : Spongos :=
  s.absorb x

/-- `AbsorbExternal::unwrap_absorb_external` from `src/pb3/cmd/absorb.rs`:
identical sponge transition to the wrap side, again with no buffer parameter. -/
def unwrap_absorb_external (x : List Trit) (s : Spongos) : Spongos :=
  s.absorb x

/-- The default method `Absorb::unwrap_absorb` from `src/pb3/cmd/absorb.rs`:
`let v = Self::unwrap_absorb_sized(s, b)?; *self = v;`.  The implementor's
`unwrap_absorb_sized` is passed as a function that may mutate the sponge and
cursor even when it fails (they are `&mut` in the source); on failure the
early return leaves the target value `self` untouched. -/
def unwrap_absorb {α : Type} (sized : Spongos → List Trit → Result α × Spongos × List Trit)
    (self : α) (s : Spongos) (b : List Trit) : Result Unit × α × Spongos × List Trit :=
  match sized s b with
  | (.ok v, s1, b1) => (.ok (), v, s1, b1)
  | (.err e, s1, b1) => (.err e, self, s1, b1)

/-- `MSGID_SIZE` from `src/app/core/mod.rs`. -/
def MSGID_SIZE : Nat := 81

/-- `APPINST_SIZE` from `src/app/core/mod.rs`. -/
def APPINST_SIZE : Nat := 243

/-- `MsgId` from `src/app/core/mod.rs`: an 81-trit opaque handle. -/
structure MsgId where
  id : List Trit
deriving DecidableEq

/-- `pb3::Trytes`: a tryte payload container; `size` is its length in trits. -/
structure Trytes where
  tr : List Trit
deriving DecidableEq

/-- `Trytes::size`: payload size in trits. -/
def Trytes.size (t : Trytes) : Nat := t.tr.length

/-- Width in trits of the modelled length-prefix field of a `trytes` value.
Modelled from the spec: payload containers are length-prefixed; the prefix
encoding itself lives outside `src/`, so a fixed-width base-3 field is used. -/
def sizeW : Nat := 12

/-- Width in trits of the modelled Merkle-tree-depth field of a signature. -/
def dW : Nat := 3

/-- Width in trits of the modelled leaf-index field of a signature. -/
def sknW : Nat := 18

/-- Length in trits of a Merkle-tree node digest in the modelled MSS. -/
def hashLen : Nat := 27

/-- Length in trits of the digest signed by `mssig`: 78 trytes, per the
schema comment `squeeze external tryte hash[78]` in
`src/app/channel/msg/signed_packet.rs`. -/
def digestTrits : Nat := 234

/-- Encode a natural number as `w` base-3 trit digits, least significant
first (modelled length-prefix / index codec). -/
def natToTrits : Nat → Nat → List Trit
  | 0, _ => []
  | w + 1, n => ((n % 3 : Nat) : Trit) :: natToTrits w (n / 3)

/-- Decode base-3 trit digits back to a natural number. -/
def tritsToNat (l : List Trit) : Nat :=
  l.foldr (fun t acc => t.val + 3 * acc) 0

/-- `pb3::sizeof_ntrytes`: wire size of `n` raw trytes. -/
def sizeof_ntrytes (n : Nat) : Nat := 3 * n

/-- `pb3::sizeof_trytes`: wire size of a length-prefixed payload of `nt`
trytes.  Modelled from the spec: prefix plus content. -/
def sizeof_trytes (nt : Nat) : Nat := sizeW + 3 * nt

/-- `Trytes::wrap_absorb` (the `Absorb` impl for `Trytes`, outside `src/`):
emit the length prefix followed by the content, absorbing everything.
Modelled from the spec: `absorb` authenticates data that stays in clear. -/
def Trytes.wrap_absorb (t : Trytes) (s : Spongos) : Spongos × List Trit :=
  let w := natToTrits sizeW (t.size / 3) ++ t.tr
  (s.absorb w, w)

/-- `Trytes::unwrap_absorb_sized`: read and absorb the length prefix, then
read and absorb that many trytes of content.  Modelled from the spec. -/
def Trytes.unwrap_absorb_sized (s : Spongos) (b : List Trit) :
    Result (Trytes × Spongos × List Trit) :=
  (readTrits sizeW b).bind fun lb =>
    let s1 := s.absorb lb.1
    (readTrits (3 * tritsToNat lb.1) lb.2).bind fun cb =>
      .ok (⟨cb.1⟩, s1.absorb cb.1, cb.2)

/-- `Trytes::wrap_mask` (the `Mask` impl for `Trytes`, outside `src/`):
encrypt the length prefix and the content with the sponge keystream.
Modelled from the spec: wire length equals plaintext length. -/
def Trytes.wrap_mask (t : Trytes) (s : Spongos) : Spongos × List Trit :=
  Spongos.encr s (natToTrits sizeW (t.size / 3) ++ t.tr)

/-- `Trytes::unwrap_mask_sized`: decrypt the length prefix, then decrypt that
many trytes of content.  Modelled from the spec. -/
def Trytes.unwrap_mask_sized (s : Spongos) (b : List Trit) :
    Result (Trytes × Spongos × List Trit) :=
  (readTrits sizeW b).bind fun lb =>
    let dp := Spongos.decr s lb.1
    (readTrits (3 * tritsToNat dp.2) lb.2).bind fun cb =>
      let dc := Spongos.decr dp.1 cb.1
      .ok (⟨dc.2⟩, dc.1, cb.2)

/-- `pb3::join::wrap_join`: write the link identifier in clear (absorbing it)
and join the linked message's sponge state into the current one.  Modelled
from the spec: `join` resolves, forks and continues against the fork. -/
def wrap_join (msgid : List Trit) (slink : Spongos) (s : Spongos) : Spongos × List Trit :=
  ((s.absorb msgid).join slink, msgid)

/-- `pb3::join::unwrap_join`: read the link identifier, absorb it, resolve it
through the injected lookup and join the resolved state; an unresolved
identifier is a hard failure.  Modelled from the spec. -/
def unwrap_join (lookup : List Trit → Option Spongos) (s : Spongos) (b : List Trit) :
    Result (Spongos × List Trit) :=
  (readTrits MSGID_SIZE b).bind fun m =>
    match lookup m.1 with
    | none => .err .UnresolvedLink
    | some slink => .ok ((s.absorb m.1).join slink, m.2)

/-- `mss::PrivateKey`.  Modelled from the spec: generated deterministically
from a seed, a nonce and a tree depth `d`; owns `2^d` leaf one-time key
pairs; `skn` is the index of the leaf used for the next signature. -/
structure PrivateKey where
  seed : List Trit
  nonce : List Trit
  d : Nat
  skn : Nat
deriving DecidableEq

/-- Modelled hash: absorb the input into a fresh sponge and squeeze a
node-digest's worth of output. -/
def hashT (x : List Trit) : List Trit :=
  (Spongos.init.absorb x).squeeze hashLen

/-- Modelled from the spec: each leaf one-time secret is generated
independently from a sub-seed derived from seed, nonce and leaf index. -/
def leafSecret (sk : PrivateKey) (i : Nat) : List Trit :=
  ((Spongos.init.absorb sk.seed).absorb (sk.nonce ++ natToTrits sknW i)).squeeze digestTrits

/-- Modelled one-time leaf public digest: hash of the fully-advanced chains. -/
def leafPub (sk : PrivateKey) (i : Nat) : List Trit :=
  hashT ((leafSecret sk i).map (fun x => x + 2))

/-- Modelled Merkle tree node: level `0` holds the leaf public digests, level
`lvl + 1` hashes the concatenation of its two children. -/
def mtNode (sk : PrivateKey) : Nat → Nat → List Trit
  | 0, i => leafPub sk i
  | lvl + 1, i => hashT (mtNode sk lvl (2 * i) ++ mtNode sk lvl (2 * i + 1))

/-- `mss::PrivateKey::public_key`: the Merkle root.  Modelled from the spec. -/
def PrivateKey.public_key (sk : PrivateKey) : List Trit :=
  mtNode sk sk.d 0

/-- Index of the Merkle sibling of node `i` on its level. -/
def sibling (i : Nat) : Nat := if i % 2 = 0 then i + 1 else i - 1

/-- Authentication path of leaf `skn`: the sibling digest at every level from
leaf to root.  Modelled from the spec. -/
def authPath (sk : PrivateKey) : List (List Trit) :=
  (List.range sk.d).map (fun j => mtNode sk j (sibling (sk.skn / 2 ^ j)))

/-- Modelled one-time signing: advance each secret chain by the corresponding
digest trit. -/
def otsSign (secret digest : List Trit) : List Trit :=
  List.zipWith (fun x t => x + t) secret digest

/-- Modelled one-time recovery: complete each chain to its full length using
the same digest. -/
def otsRecover (sig digest : List Trit) : List Trit :=
  List.zipWith (fun c t => c + ((2 - t.val : Nat) : Trit)) sig digest

/-- Walk an authentication path from a candidate leaf digest up to a candidate
root. -/
def mtFold (h : List Trit) (i : Nat) : List (List Trit) → List Trit
  | [] => h
  | p :: rest =>
    mtFold (if i % 2 = 0 then hashT (h ++ p) else hashT (p ++ h)) (i / 2) rest

/-- `pb3::mssig::sizeof_mssig`: wire size of a signature, a function solely of
the key's tree depth.  Modelled from the spec. -/
def sizeof_mssig (sk : PrivateKey) : Nat :=
  dW + sknW + digestTrits + sk.d * hashLen

/-- `pb3::mssig::squeeze_wrap_mssig`: commit, squeeze the digest to be signed
(externally, nothing on the wire), then write depth, leaf index, one-time
signature and authentication path.  Modelled from the spec. -/
def squeeze_wrap_mssig (sk : PrivateKey) (s : Spongos) : Spongos × List Trit :=
  let s1 := s.commit
  let h := s1.squeeze digestTrits
  (s1, natToTrits dW sk.d ++ natToTrits sknW sk.skn ++
    otsSign (leafSecret sk sk.skn) h ++ (authPath sk).flatten)

/-- Split `k` node digests off the remaining buffer. -/
def readNodes : Nat → List Trit → Result (List (List Trit) × List Trit)
  | 0, b => .ok ([], b)
  | k + 1, b =>
    (readTrits hashLen b).bind fun c =>
      (readNodes k c.2).bind fun cs => .ok (c.1 :: cs.1, cs.2)

/-- `pb3::mssig::squeeze_unwrap_mssig_recover`: recompute the digest exactly
as the wrap side did, read the signature fields and return the candidate
Merkle root.  Modelled from the spec. -/
def squeeze_unwrap_mssig_recover (s : Spongos) (b : List Trit) :
    Result (List Trit × Spongos × List Trit) :=
  let s1 := s.commit
  let h := s1.squeeze digestTrits
  (readTrits dW b).bind fun dT =>
    (readTrits sknW dT.2).bind fun sknT =>
      (readTrits digestTrits sknT.2).bind fun sigT =>
        (readNodes (tritsToNat dT.1) sigT.2).bind fun path =>
          .ok (mtFold (hashT (otsRecover sigT.1 h)) (tritsToNat sknT.1) path.1, s1, path.2)

/-- `pb3::mssig::squeeze_unwrap_mssig_verify`: recover the candidate root and
accept iff it equals the known public key, else `SignatureInvalid`.  Modelled
from the spec. -/
def squeeze_unwrap_mssig_verify (mss_pk : List Trit) (s : Spongos) (b : List Trit) :
    Result (Spongos × List Trit) :=
  (squeeze_unwrap_mssig_recover s b).bind fun r =>
    if r.1 = mss_pk then .ok (r.2.1, r.2.2) else .err .SignatureInvalid

/-- `app::channel::msg::signed_packet::sizeof` from
`src/app/channel/msg/signed_packet.rs`: join link + absorbed public payload +
masked payload + signature, with payload sizes given in trytes. -/
def SignedPacket.sizeof (public_trytes masked_trytes : Nat) (sk : PrivateKey) : Nat :=
  0
    + sizeof_ntrytes (MSGID_SIZE / 3)
    + sizeof_trytes public_trytes
    + sizeof_trytes masked_trytes
    + sizeof_mssig sk

/-- The body of `signed_packet::wrap` after its assertions: the four schema
commands in source order, with the emitted trit streams concatenated. -/
def SignedPacket.wrapOut (msgid : MsgId) (slink : Spongos)
    (public_payload masked_payload : Trytes) (sk : PrivateKey) (s : Spongos) :
    Spongos × List Trit :=
  let j := wrap_join msgid.id slink s
  let a := Trytes.wrap_absorb public_payload j.1
  let m := Trytes.wrap_mask masked_payload a.1
  let g := squeeze_wrap_mssig sk m.1
  (g.1, j.2 ++ a.2 ++ m.2 ++ g.2)

/-- `app::channel::msg::signed_packet::wrap` from
`src/app/channel/msg/signed_packet.rs`.  The two `assert!` statements on the
payload sizes are modelled as an `Option` guard: `none` models the panic. -/
def SignedPacket.wrap (msgid : MsgId) (slink : Spongos)
    (public_payload masked_payload : Trytes) (sk : PrivateKey) (s : Spongos) :
    Option (Spongos × List Trit) :=
  if public_payload.size % 3 = 0 ∧ masked_payload.size % 3 = 0 then
    some (SignedPacket.wrapOut msgid slink public_payload masked_payload sk s)
  else
    none

/-- `app::channel::msg::signed_packet::unwrap_recover` from
`src/app/channel/msg/signed_packet.rs`: join, absorb public payload, unmask
masked payload, then recover the signer's public key. -/
def SignedPacket.unwrap_recover (lookup : List Trit → Option Spongos)
    (s : Spongos) (b : List Trit) :
    Result ((List Trit × Trytes × Trytes) × Spongos × List Trit) :=
  (unwrap_join lookup s b).bind fun j =>
    (Trytes.unwrap_absorb_sized j.1 j.2).bind fun pp =>
      (Trytes.unwrap_mask_sized pp.2.1 pp.2.2).bind fun mp =>
        (squeeze_unwrap_mssig_recover mp.2.1 mp.2.2).bind fun r =>
          .ok ((r.1, pp.1, mp.1), r.2.1, r.2.2)

/-- `app::channel::msg::signed_packet::unwrap_verify` from
`src/app/channel/msg/signed_packet.rs`: join, absorb public payload, unmask
masked payload, then verify the signature against the pinned public key. -/
def SignedPacket.unwrap_verify (lookup : List Trit → Option Spongos)
    (mss_pk : List Trit) (s : Spongos) (b : List Trit) :
    Result ((Trytes × Trytes) × Spongos × List Trit) :=
  (unwrap_join lookup s b).bind fun j =>
    (Trytes.unwrap_absorb_sized j.1 j.2).bind fun pp =>
      (Trytes.unwrap_mask_sized pp.2.1 pp.2.2).bind fun mp =>
        (squeeze_unwrap_mssig_verify mss_pk mp.2.1 mp.2.2).bind fun v =>
          .ok ((pp.1, mp.1), v.1, v.2)

/-- Concrete message id used by the witnesses. -/
def msgidW : MsgId := ⟨List.replicate 81 0⟩

/-- Concrete public payload (one tryte) used by the witnesses. -/
def ppW : Trytes := ⟨[1, 1, 0]⟩

/-- Concrete masked payload (one tryte) used by the witnesses. -/
def mpW : Trytes := ⟨[2, 0, 1]⟩

/-- Concrete signing key of depth 1 used by the witnesses. -/
def skW : PrivateKey := ⟨[1], [0], 1, 0⟩

/-- Concrete link-resolution function used by the witnesses: resolves exactly
the witness message id to a fresh sponge state. -/
def lookupW : List Trit → Option Spongos :=
  fun m => if m = msgidW.id then some Spongos.init else none

/-- Concrete failing `unwrap_absorb_sized` implementation used by the
default-method witness: always fails while still touching sponge and cursor. -/
def sizedW : Spongos → List Trit → Result Nat × Spongos × List Trit :=
  fun s b => (.err .Eof, s.commit, b)

/-- Absorbing a concatenation is absorbing the parts in sequence. -/
theorem Spongos.absorb_append (s : Spongos) (a b : List Trit) :
    s.absorb (a ++ b) = (s.absorb a).absorb b := by
  simp [Spongos.absorb, List.foldl_append]

/-- Reading exactly the leading chunk of a concatenation succeeds and leaves
the tail. -/
theorem readTrits_append (a r : List Trit) :
    readTrits a.length (a ++ r) = .ok (a, r) := by
  simp [readTrits]

/-- `readTrits_append` with the requested length given by a separate equation. -/
theorem readTrits_append_of (n : Nat) (a r : List Trit) (h : a.length = n) :
    readTrits n (a ++ r) = .ok (a, r) := by
  subst h; exact readTrits_append a r

/-- Sequencing after a successful step reduces. -/
theorem Result.bind_ok {α β : Type} (v : α) (f : α → Result β) :
    (Result.ok v).bind f = f v := rfl

/-- Sequencing after a failed step propagates the error. -/
theorem Result.bind_err {α β : Type} (e : Err) (f : α → Result β) :
    (Result.err e : Result α).bind f = .err e := rfl

/-- The modelled width-`w` codec always emits `w` trits. -/
theorem natToTrits_length (w n : Nat) : (natToTrits w n).length = w := by
  induction w generalizing n with
  | zero => rfl
  | succ w ih => simp [natToTrits, ih]

/-- The modelled codec round-trips every value below its capacity. -/
theorem tritsToNat_natToTrits (w n : Nat) (h : n < 3 ^ w) :
    tritsToNat (natToTrits w n) = n := by
  induction w generalizing n with
  | zero =>
    simp [natToTrits, tritsToNat]
    omega
  | succ w ih =>
    have hdiv : n / 3 < 3 ^ w := by
      have hp : (3 : Nat) ^ (w + 1) = 3 ^ w * 3 := pow_succ 3 w
      omega
    simp [natToTrits, tritsToNat] at *
    rw [ih (n / 3) hdiv]
    omega

/-- A squeeze of `n` trits has length `n`. -/
theorem squeeze_length (s : Spongos) (n : Nat) : (s.squeeze n).length = n := by
  induction n generalizing s with
  | zero => rfl
  | succ n ih => simp [Spongos.squeeze, ih]

/-- Masking preserves the wire length. -/
theorem encr_length (s : Spongos) (p : List Trit) :
    (Spongos.encr s p).2.length = p.length := by
  induction p generalizing s with
  | nil => rfl
  | cons x xs ih => simp [Spongos.encr, ih]

/-- The sponge state after masking a concatenation. -/
theorem encr_append_fst (s : Spongos) (a b : List Trit) :
    (Spongos.encr s (a ++ b)).1 = (Spongos.encr (Spongos.encr s a).1 b).1 := by
  induction a generalizing s with
  | nil => rfl
  | cons x xs ih => simp [Spongos.encr, ih]

/-- The ciphertext of a concatenation is the concatenation of the
ciphertexts, the second masked from the advanced state. -/
theorem encr_append_snd (s : Spongos) (a b : List Trit) :
    (Spongos.encr s (a ++ b)).2 =
      (Spongos.encr s a).2 ++ (Spongos.encr (Spongos.encr s a).1 b).2 := by
  induction a generalizing s with
  | nil => rfl
  | cons x xs ih => simp [Spongos.encr, ih]

/-- Unmasking inverts masking from the same incoming state, and both sides
leave the sponge in the same state. -/
theorem decr_encr (s : Spongos) (p : List Trit) :
    Spongos.decr s (Spongos.encr s p).2 = ((Spongos.encr s p).1, p) := by
  induction p generalizing s with
  | nil => rfl
  | cons x xs ih =>
    have hx : x + s.outTrit - s.outTrit = x := add_sub_cancel_right x s.outTrit
    simp [Spongos.encr, Spongos.decr, hx, ih]

/-- Completing a chain that was advanced by a trit lands at the full chain
length, whatever the trit. -/
theorem chain_complete : ∀ t : Trit, t + ((2 - t.val : Nat) : Trit) = 2 := by
  decide

/-- Recovering from an honest one-time signature advances every chain to its
full length. -/
theorem otsRecover_otsSign (a b : List Trit) :
    otsRecover (otsSign a b) b = List.zipWith (fun x _ => x + 2) a b := by
  induction a generalizing b with
  | nil => cases b <;> rfl
  | cons x xs ih =>
    cases b with
    | nil => rfl
    | cons t ts =>
      have hh := ih ts
      simp only [otsSign, otsRecover, List.zipWith_cons_cons] at hh ⊢
      rw [add_assoc, chain_complete t, hh]

/-- Zipping with a function that ignores its second argument is a map when
the second list is long enough. -/
theorem zipWith_add_two (a b : List Trit) (h : a.length ≤ b.length) :
    List.zipWith (fun x _ => x + 2) a b = a.map (fun x => x + 2) := by
  induction a generalizing b with
  | nil => rfl
  | cons x xs ih =>
    cases b with
    | nil => simp at h
    | cons t ts =>
      simp at h
      simp [ih ts h]

/-- Every leaf one-time secret has the digest length. -/
theorem leafSecret_length (sk : PrivateKey) (i : Nat) :
    (leafSecret sk i).length = digestTrits :=
  squeeze_length _ _

/-- An honest one-time signature recovers the leaf public digest for any
digest of full length. -/
theorem otsRecover_leafPub (sk : PrivateKey) (i : Nat) (h : List Trit)
    (hh : digestTrits ≤ h.length) :
    hashT (otsRecover (otsSign (leafSecret sk i) h) h) = leafPub sk i := by
  rw [otsRecover_otsSign]
  rw [zipWith_add_two _ _ (by rw [leafSecret_length]; exact hh)]
  rfl

/-- Every Merkle node digest has the fixed node length. -/
theorem mtNode_length (sk : PrivateKey) (lvl i : Nat) :
    (mtNode sk lvl i).length = hashLen := by
  cases lvl <;> simp [mtNode, leafPub, hashT, squeeze_length]

/-- One step of the path walk from a node reaches its parent. -/
theorem mtStep (sk : PrivateKey) (lvl i : Nat) :
    (if i % 2 = 0 then hashT (mtNode sk lvl i ++ mtNode sk lvl (sibling i))
     else hashT (mtNode sk lvl (sibling i) ++ mtNode sk lvl i)) =
      mtNode sk (lvl + 1) (i / 2) := by
  by_cases hpar : i % 2 = 0
  · have h1 : 2 * (i / 2) = i := by omega
    rw [if_pos hpar]
    show _ = hashT (mtNode sk lvl (2 * (i / 2)) ++ mtNode sk lvl (2 * (i / 2) + 1))
    rw [h1]
    simp [sibling, hpar]
  · have h1 : 2 * (i / 2) = i - 1 := by omega
    have h3 : i - 1 + 1 = i := by omega
    rw [if_neg hpar]
    show _ = hashT (mtNode sk lvl (2 * (i / 2)) ++ mtNode sk lvl (2 * (i / 2) + 1))
    rw [h1, h3]
    simp [sibling, hpar]

/-- Walking the sibling digests from any node to the top of a subtree yields
the subtree's root digest. -/
theorem mtFold_path (sk : PrivateKey) (k : Nat) :
    ∀ lvl i, mtFold (mtNode sk lvl i) i
      ((List.range k).map (fun j => mtNode sk (lvl + j) (sibling (i / 2 ^ j)))) =
      mtNode sk (lvl + k) (i / 2 ^ k) := by
  induction k with
  | zero => intro lvl i; simp [mtFold]
  | succ k ih =>
    intro lvl i
    rw [List.range_succ_eq_map]
    simp only [List.map_cons, List.map_map, Function.comp_def, Nat.succ_eq_add_one,
      Nat.add_zero, pow_zero, Nat.div_one, mtFold]
    rw [mtStep sk lvl i]
    have hlist : (List.range k).map
        (fun j => mtNode sk (lvl + (j + 1)) (sibling (i / 2 ^ (j + 1)))) =
        (List.range k).map (fun j => mtNode sk (lvl + 1 + j) (sibling (i / 2 / 2 ^ j))) := by
      refine List.map_congr_left (fun j _ => ?_)
      have hA : lvl + (j + 1) = lvl + 1 + j := by omega
      have hB : i / 2 ^ (j + 1) = i / 2 / 2 ^ j := by
        rw [Nat.div_div_eq_div_mul, ← pow_succ']
      rw [hA, hB]
    rw [hlist, ih (lvl + 1) (i / 2)]
    have hA : lvl + 1 + k = lvl + (k + 1) := by omega
    have hB : i / 2 / 2 ^ k = i / 2 ^ (k + 1) := by
      rw [Nat.div_div_eq_div_mul, ← pow_succ']
    rw [hA, hB]

/-- Walking an honest authentication path from the honest leaf digest yields
the signer's public key. -/
theorem mtFold_authPath (sk : PrivateKey) (h : sk.skn < 2 ^ sk.d) :
    mtFold (leafPub sk sk.skn) sk.skn (authPath sk) = sk.public_key := by
  have hmain := mtFold_path sk sk.d 0 sk.skn
  simp only [Nat.zero_add] at hmain
  rw [authPath]
  show mtFold (mtNode sk 0 sk.skn) sk.skn _ = _
  rw [hmain, Nat.div_eq_of_lt h]
  rfl

/-- An honest one-time signature has the digest length on the wire. -/
theorem otsSign_length (sk : PrivateKey) (i : Nat) (h : List Trit)
    (hh : h.length = digestTrits) :
    (otsSign (leafSecret sk i) h).length = digestTrits := by
  simp [otsSign, leafSecret_length, hh]

/-- Splitting node digests off a flattened list of nodes of the right length
recovers the list. -/
theorem readNodes_flat (ps : List (List Trit)) (r : List Trit)
    (h : ∀ p ∈ ps, p.length = hashLen) :
    readNodes ps.length (ps.flatten ++ r) = .ok (ps, r) := by
  induction ps with
  | nil => rfl
  | cons p ps ih =>
    simp only [List.flatten_cons, List.length_cons, List.append_assoc, readNodes]
    rw [readTrits_append_of hashLen p _ (h p (by simp)), Result.bind_ok]
    rw [ih (fun q hq => h q (by simp [hq])), Result.bind_ok]

/-- Every entry of an authentication path is a node digest of node length. -/
theorem authPath_mem_length (sk : PrivateKey) :
    ∀ p ∈ authPath sk, p.length = hashLen := by
  intro p hp
  rw [authPath] at hp
  obtain ⟨j, _, rfl⟩ := List.mem_map.mp hp
  exact mtNode_length sk j _

/-- An authentication path has one entry per tree level. -/
theorem authPath_length (sk : PrivateKey) : (authPath sk).length = sk.d := by
  simp [authPath]

/-- A flattened authentication path occupies depth-times-node-length trits. -/
theorem authPath_flat_length (sk : PrivateKey) :
    (authPath sk).flatten.length = sk.d * hashLen := by
  have h : ∀ (l : List (List Trit)), (∀ p ∈ l, p.length = hashLen) →
      l.flatten.length = l.length * hashLen := by
    intro l
    induction l with
    | nil => intro _; rfl
    | cons p ps ih =>
      intro hl
      simp only [List.flatten_cons, List.length_append, List.length_cons]
      rw [hl p (by simp), ih (fun q hq => hl q (by simp [hq]))]
      ring
  rw [h (authPath sk) (authPath_mem_length sk), authPath_length]

/-- Unwrapping a signature emitted by the wrap side from the same sponge
state recovers exactly the signer's public key, consumes exactly the
signature trits, and leaves the sponge in the committed state. -/
theorem mssig_recover_of_wrap (sk : PrivateKey) (s : Spongos) (rest : List Trit)
    (hd : sk.d < 3 ^ dW) (hskn : sk.skn < 3 ^ sknW) (hleaf : sk.skn < 2 ^ sk.d) :
    squeeze_unwrap_mssig_recover s ((squeeze_wrap_mssig sk s).2 ++ rest) =
      .ok (sk.public_key, s.commit, rest) := by
  rw [squeeze_wrap_mssig, squeeze_unwrap_mssig_recover]
  simp only [List.append_assoc]
  rw [readTrits_append_of dW _ _ (natToTrits_length dW sk.d), Result.bind_ok]
  rw [readTrits_append_of sknW _ _ (natToTrits_length sknW sk.skn), Result.bind_ok]
  rw [readTrits_append_of digestTrits _ _
    (otsSign_length sk sk.skn _ (squeeze_length _ _)), Result.bind_ok]
  rw [tritsToNat_natToTrits dW sk.d hd]
  rw [← authPath_length sk]
  rw [readNodes_flat (authPath sk) rest (authPath_mem_length sk), Result.bind_ok]
  rw [tritsToNat_natToTrits sknW sk.skn hskn]
  rw [otsRecover_leafPub sk sk.skn _ (by rw [squeeze_length])]
  rw [mtFold_authPath sk hleaf]

/-- Verifying a signature emitted by the wrap side from the same sponge state
against the signer's public key succeeds. -/
theorem mssig_verify_of_wrap (sk : PrivateKey) (s : Spongos) (rest : List Trit)
    (hd : sk.d < 3 ^ dW) (hskn : sk.skn < 3 ^ sknW) (hleaf : sk.skn < 2 ^ sk.d) :
    squeeze_unwrap_mssig_verify sk.public_key s ((squeeze_wrap_mssig sk s).2 ++ rest) =
      .ok (s.commit, rest) := by
  rw [squeeze_unwrap_mssig_verify, mssig_recover_of_wrap sk s rest hd hskn hleaf,
    Result.bind_ok]
  simp

/-- Unwrapping an absorbed payload emitted by the wrap side from the same
sponge state recovers the payload and the wrap side's sponge state. -/
theorem trytes_unwrap_absorb_of_wrap (t : Trytes) (s : Spongos) (rest : List Trit)
    (h3 : t.size % 3 = 0) (hb : t.size / 3 < 3 ^ sizeW) :
    Trytes.unwrap_absorb_sized s ((t.wrap_absorb s).2 ++ rest) =
      .ok (t, (t.wrap_absorb s).1, rest) := by
  rw [Trytes.wrap_absorb, Trytes.unwrap_absorb_sized]
  simp only [List.append_assoc]
  rw [readTrits_append_of sizeW _ _ (natToTrits_length sizeW (t.size / 3)), Result.bind_ok]
  rw [tritsToNat_natToTrits sizeW (t.size / 3) hb]
  have hsz : 3 * (t.size / 3) = t.tr.length := by
    have : t.size = t.tr.length := rfl
    omega
  rw [readTrits_append_of _ _ _ hsz.symm, Result.bind_ok]
  rw [Spongos.absorb_append]

/-- Unwrapping a masked payload emitted by the wrap side from the same sponge
state recovers the plaintext payload and the wrap side's sponge state. -/
theorem trytes_unwrap_mask_of_wrap (t : Trytes) (s : Spongos) (rest : List Trit)
    (h3 : t.size % 3 = 0) (hb : t.size / 3 < 3 ^ sizeW) :
    Trytes.unwrap_mask_sized s ((t.wrap_mask s).2 ++ rest) =
      .ok (t, (t.wrap_mask s).1, rest) := by
  rw [Trytes.wrap_mask, Trytes.unwrap_mask_sized]
  rw [encr_append_snd]
  simp only [List.append_assoc]
  have hlen : (Spongos.encr s (natToTrits sizeW (t.size / 3))).2.length = sizeW := by
    rw [encr_length, natToTrits_length]
  rw [readTrits_append_of sizeW _ _ hlen, Result.bind_ok]
  rw [decr_encr]
  rw [tritsToNat_natToTrits sizeW (t.size / 3) hb]
  have hsz : 3 * (t.size / 3) = (Spongos.encr (Spongos.encr s
      (natToTrits sizeW (t.size / 3))).1 t.tr).2.length := by
    rw [encr_length]
    have : t.size = t.tr.length := rfl
    omega
  rw [readTrits_append_of _ _ _ hsz.symm, Result.bind_ok]
  rw [decr_encr, encr_append_fst]

/-- Unwrapping the join emitted by the wrap side resolves the identifier and
reproduces the wrap side's joined sponge state. -/
theorem unwrap_join_of_wrap (lookup : List Trit → Option Spongos) (msgid : List Trit)
    (slink : Spongos) (s : Spongos) (rest : List Trit)
    (hm : msgid.length = MSGID_SIZE) (hl : lookup msgid = some slink) :
    unwrap_join lookup s ((wrap_join msgid slink s).2 ++ rest) =
      .ok ((wrap_join msgid slink s).1, rest) := by
  rw [wrap_join, unwrap_join]
  rw [readTrits_append_of MSGID_SIZE msgid rest hm, Result.bind_ok]
  rw [hl]

/-- Generic decomposition of `unwrap_recover`: if each schema step succeeds
with a known result, the whole unwrap is their composition.  Stated over
opaque step results so that instances are checked without evaluating any
sponge computation. -/
theorem unwrap_recover_eq (lookup : List Trit → Option Spongos) (s : Spongos)
    (b : List Trit) (js : Spongos) (jb : List Trit)
    (t1 : Trytes) (s1 : Spongos) (b1 : List Trit)
    (t2 : Trytes) (s2 : Spongos) (b2 : List Trit)
    (pk : List Trit) (s3 : Spongos) (b3 : List Trit)
    (h1 : unwrap_join lookup s b = .ok (js, jb))
    (h2 : Trytes.unwrap_absorb_sized js jb = .ok (t1, s1, b1))
    (h3 : Trytes.unwrap_mask_sized s1 b1 = .ok (t2, s2, b2))
    (h4 : squeeze_unwrap_mssig_recover s2 b2 = .ok (pk, s3, b3)) :
    SignedPacket.unwrap_recover lookup s b = .ok ((pk, t1, t2), s3, b3) := by
  simp only [SignedPacket.unwrap_recover, h1, h2, h3, h4, Result.bind_ok]

/-- Generic decomposition of `unwrap_verify`, as for `unwrap_recover`. -/
theorem unwrap_verify_eq (lookup : List Trit → Option Spongos) (mss_pk : List Trit)
    (s : Spongos) (b : List Trit) (js : Spongos) (jb : List Trit)
    (t1 : Trytes) (s1 : Spongos) (b1 : List Trit)
    (t2 : Trytes) (s2 : Spongos) (b2 : List Trit)
    (s3 : Spongos) (b3 : List Trit)
    (h1 : unwrap_join lookup s b = .ok (js, jb))
    (h2 : Trytes.unwrap_absorb_sized js jb = .ok (t1, s1, b1))
    (h3 : Trytes.unwrap_mask_sized s1 b1 = .ok (t2, s2, b2))
    (h4 : squeeze_unwrap_mssig_verify mss_pk s2 b2 = .ok (s3, b3)) :
    SignedPacket.unwrap_verify lookup mss_pk s b = .ok ((t1, t2), s3, b3) := by
  simp only [SignedPacket.unwrap_verify, h1, h2, h3, h4, Result.bind_ok]

/-- The wrap emission, re-associated into the per-command chunks that the
unwrap side consumes one by one. -/
theorem wrapOut_assoc (msgid : MsgId) (slink : Spongos) (pp mp : Trytes)
    (sk : PrivateKey) (s : Spongos) (rest : List Trit) :
    (SignedPacket.wrapOut msgid slink pp mp sk s).2 ++ rest =
      (wrap_join msgid.id slink s).2 ++
        ((Trytes.wrap_absorb pp (wrap_join msgid.id slink s).1).2 ++
          ((Trytes.wrap_mask mp
              (Trytes.wrap_absorb pp (wrap_join msgid.id slink s).1).1).2 ++
            ((squeeze_wrap_mssig sk
                (Trytes.wrap_mask mp
                  (Trytes.wrap_absorb pp (wrap_join msgid.id slink s).1).1).1).2 ++
              rest))) := by
  simp only [SignedPacket.wrapOut, List.append_assoc]

/-- Running `unwrap_recover` over an honestly wrapped buffer (with anything
appended) recovers the signer's public key and the two payloads, consumes
exactly the wrapped trits, and reproduces the wrap side's final sponge. -/
theorem unwrap_recover_pipeline (lookup : List Trit → Option Spongos) (msgid : MsgId)
    (slink : Spongos) (pp mp : Trytes) (sk : PrivateKey) (s : Spongos) (rest : List Trit)
    (hm : msgid.id.length = MSGID_SIZE)
    (hp : pp.size % 3 = 0) (hmp : mp.size % 3 = 0)
    (hpb : pp.size / 3 < 3 ^ sizeW) (hmb : mp.size / 3 < 3 ^ sizeW)
    (hd : sk.d < 3 ^ dW) (hskn : sk.skn < 3 ^ sknW) (hleaf : sk.skn < 2 ^ sk.d)
    (hl : lookup msgid.id = some slink) :
    SignedPacket.unwrap_recover lookup s
        ((SignedPacket.wrapOut msgid slink pp mp sk s).2 ++ rest) =
      .ok ((sk.public_key, pp, mp), (SignedPacket.wrapOut msgid slink pp mp sk s).1, rest) := by
  rw [wrapOut_assoc]
  exact unwrap_recover_eq lookup s _ _ _ _ _ _ _ _ _ _ _ _
    (unwrap_join_of_wrap lookup msgid.id slink s _ hm hl)
    (trytes_unwrap_absorb_of_wrap pp _ _ hp hpb)
    (trytes_unwrap_mask_of_wrap mp _ _ hmp hmb)
    (mssig_recover_of_wrap sk _ rest hd hskn hleaf)

/-- Running `unwrap_verify` with the signer's public key over an honestly
wrapped buffer (with anything appended) yields the two payloads, consumes
exactly the wrapped trits, and reproduces the wrap side's final sponge. -/
theorem unwrap_verify_pipeline (lookup : List Trit → Option Spongos) (msgid : MsgId)
    (slink : Spongos) (pp mp : Trytes) (sk : PrivateKey) (s : Spongos) (rest : List Trit)
    (hm : msgid.id.length = MSGID_SIZE)
    (hp : pp.size % 3 = 0) (hmp : mp.size % 3 = 0)
    (hpb : pp.size / 3 < 3 ^ sizeW) (hmb : mp.size / 3 < 3 ^ sizeW)
    (hd : sk.d < 3 ^ dW) (hskn : sk.skn < 3 ^ sknW) (hleaf : sk.skn < 2 ^ sk.d)
    (hl : lookup msgid.id = some slink) :
    SignedPacket.unwrap_verify lookup sk.public_key s
        ((SignedPacket.wrapOut msgid slink pp mp sk s).2 ++ rest) =
      .ok ((pp, mp), (SignedPacket.wrapOut msgid slink pp mp sk s).1, rest) := by
  rw [wrapOut_assoc]
  exact unwrap_verify_eq lookup sk.public_key s _ _ _ _ _ _ _ _ _ _ _
    (unwrap_join_of_wrap lookup msgid.id slink s _ hm hl)
    (trytes_unwrap_absorb_of_wrap pp _ _ hp hpb)
    (trytes_unwrap_mask_of_wrap mp _ _ hmp hmb)
    (mssig_verify_of_wrap sk _ rest hd hskn hleaf)

/-- The number of trits emitted by the wrap body equals the declared size. -/
theorem wrapOut_length (msgid : MsgId) (slink : Spongos) (pp mp : Trytes)
    (sk : PrivateKey) (s : Spongos)
    (hm : msgid.id.length = MSGID_SIZE)
    (hp : pp.size % 3 = 0) (hmp : mp.size % 3 = 0) :
    (SignedPacket.wrapOut msgid slink pp mp sk s).2.length =
      SignedPacket.sizeof (pp.size / 3) (mp.size / 3) sk := by
  have hj : (wrap_join msgid.id slink s).2.length = MSGID_SIZE := hm
  have ha : ∀ s' : Spongos, (Trytes.wrap_absorb pp s').2.length = sizeW + pp.tr.length := by
    intro s'
    simp [Trytes.wrap_absorb, natToTrits_length]
  have hmsk : ∀ s' : Spongos, (Trytes.wrap_mask mp s').2.length = sizeW + mp.tr.length := by
    intro s'
    rw [Trytes.wrap_mask, encr_length]
    simp [natToTrits_length]
  have hg : ∀ s' : Spongos, (squeeze_wrap_mssig sk s').2.length =
      dW + sknW + digestTrits + sk.d * hashLen := by
    intro s'
    simp only [squeeze_wrap_mssig, List.length_append]
    rw [natToTrits_length, natToTrits_length,
      otsSign_length sk sk.skn _ (squeeze_length _ _), authPath_flat_length]
  have hp' : pp.tr.length % 3 = 0 := hp
  have hmp' : mp.tr.length % 3 = 0 := hmp
  simp only [SignedPacket.wrapOut, List.length_append]
  rw [hj, ha, hmsk, hg]
  simp only [SignedPacket.sizeof, sizeof_ntrytes, sizeof_trytes, sizeof_mssig,
    Trytes.size, MSGID_SIZE, sizeW, dW, sknW, digestTrits, hashLen]
  omega

/-- C1: for every msgid, signing key and pair of payloads whose sizes in
trits are multiples of 3 (within the modelled codec capacities), running
`unwrap_verify` — with a lookup resolving the msgid to the parent sponge
state used by wrap, and the signer's public key — on the buffer produced by
`wrap` returns `Ok` with exactly the original payload pair, wrap emits
exactly `sizeof` trits (zero remaining in a `sizeof`-allocated buffer), and
unwrap consumes the buffer completely. -/
theorem spec_c1_round_trip (lookup : List Trit → Option Spongos) (msgid : MsgId)
    (slink : Spongos) (pp mp : Trytes) (sk : PrivateKey) (s : Spongos)
    (hm : msgid.id.length = MSGID_SIZE)
    (hp : pp.size % 3 = 0) (hmp : mp.size % 3 = 0)
    (hpb : pp.size / 3 < 3 ^ sizeW) (hmb : mp.size / 3 < 3 ^ sizeW)
    (hd : sk.d < 3 ^ dW) (hskn : sk.skn < 3 ^ sknW) (hleaf : sk.skn < 2 ^ sk.d)
    (hl : lookup msgid.id = some slink) :
    ∃ sw out, SignedPacket.wrap msgid slink pp mp sk s = some (sw, out) ∧
      out.length = SignedPacket.sizeof (pp.size / 3) (mp.size / 3) sk ∧
      ∃ su, SignedPacket.unwrap_verify lookup sk.public_key s out =
        .ok ((pp, mp), su, []) := by
  refine ⟨(SignedPacket.wrapOut msgid slink pp mp sk s).1,
    (SignedPacket.wrapOut msgid slink pp mp sk s).2, ?_, ?_, ?_⟩
  · rw [SignedPacket.wrap, if_pos ⟨hp, hmp⟩]
  · exact wrapOut_length msgid slink pp mp sk s hm hp hmp
  · refine ⟨(SignedPacket.wrapOut msgid slink pp mp sk s).1, ?_⟩
    have h := unwrap_verify_pipeline lookup msgid slink pp mp sk s []
      hm hp hmp hpb hmb hd hskn hleaf hl
    simpa using h

/-- Witness for C1 at a concrete depth-1 key, 81-trit msgid and one-tryte
payloads. -/
theorem spec_c1_round_trip_witness :
    ∃ sw out, SignedPacket.wrap msgidW Spongos.init ppW mpW skW Spongos.init =
        some (sw, out) ∧
      out.length = SignedPacket.sizeof (ppW.size / 3) (mpW.size / 3) skW ∧
      ∃ su, SignedPacket.unwrap_verify lookupW skW.public_key Spongos.init out =
        .ok ((ppW, mpW), su, []) :=
  spec_c1_round_trip lookupW msgidW Spongos.init ppW mpW skW Spongos.init
    (by decide) (by decide) (by decide) (by decide) (by decide)
    (by decide) (by decide) (by decide) (by decide)

/-- C2: for every combination of whole-tryte payloads and signing key,
`sizeof` equals the exact number of trits `wrap` writes, so a buffer
allocated with `sizeof`'s result has zero trits remaining after wrap. -/
theorem spec_c2_size_exact (msgid : MsgId) (slink : Spongos) (pp mp : Trytes)
    (sk : PrivateKey) (s : Spongos)
    (hm : msgid.id.length = MSGID_SIZE)
    (hp : pp.size % 3 = 0) (hmp : mp.size % 3 = 0) :
    ∃ o, SignedPacket.wrap msgid slink pp mp sk s = some o ∧
      o.2.length = SignedPacket.sizeof (pp.size / 3) (mp.size / 3) sk := by
  refine ⟨SignedPacket.wrapOut msgid slink pp mp sk s, ?_, ?_⟩
  · rw [SignedPacket.wrap, if_pos ⟨hp, hmp⟩]
  · exact wrapOut_length msgid slink pp mp sk s hm hp hmp

/-- Witness for C2 at the concrete witness message. -/
theorem spec_c2_size_exact_witness :
    ∃ o, SignedPacket.wrap msgidW Spongos.init ppW mpW skW Spongos.init = some o ∧
      o.2.length = SignedPacket.sizeof (ppW.size / 3) (mpW.size / 3) skW :=
  spec_c2_size_exact msgidW Spongos.init ppW mpW skW Spongos.init
    (by decide) (by decide) (by decide)

/-- C4 counterexample: with a lookup that always returns none but an empty
input buffer, `unwrap_verify` fails with `Eof` (the buffer ends before the
link identifier can even be read), not with `UnresolvedLink`; so the claim
quantified over every input buffer is false. -/
theorem spec_c4_counterexample :
    SignedPacket.unwrap_verify (fun _ => none) [] Spongos.init [] ≠
        .err .UnresolvedLink ∧
      SignedPacket.unwrap_verify (fun _ => none) [] Spongos.init [] = .err .Eof := by
  constructor <;> decide

/-- C4 (amended): for every input buffer holding at least the 81 trits of a
link identifier, `unwrap_recover` and `unwrap_verify` under a lookup that
returns none for every identifier fail with `UnresolvedLink` and return no
payload values. -/
theorem spec_c4_unresolved_link (lookup : List Trit → Option Spongos)
    (mss_pk : List Trit) (s : Spongos) (b : List Trit)
    (hnone : ∀ m, lookup m = none) (hlen : MSGID_SIZE ≤ b.length) :
    SignedPacket.unwrap_recover lookup s b = .err .UnresolvedLink ∧
      SignedPacket.unwrap_verify lookup mss_pk s b = .err .UnresolvedLink := by
  have hj : unwrap_join lookup s b = .err .UnresolvedLink := by
    simp only [unwrap_join, readTrits, if_pos hlen, Result.bind_ok, hnone]
  constructor <;>
    simp only [SignedPacket.unwrap_recover, SignedPacket.unwrap_verify, hj,
      Result.bind_err]

/-- Witness for the amended C4 at an 81-trit zero buffer. -/
theorem spec_c4_unresolved_link_witness :
    SignedPacket.unwrap_recover (fun _ => none) Spongos.init (List.replicate 81 0) =
        .err .UnresolvedLink ∧
      SignedPacket.unwrap_verify (fun _ => none) [] Spongos.init
          (List.replicate 81 0) = .err .UnresolvedLink :=
  spec_c4_unresolved_link (fun _ => none) [] Spongos.init (List.replicate 81 0)
    (fun _ => rfl) (by decide)

/-- C5: on an honestly wrapped buffer, the public key returned by
`unwrap_recover` equals the signer's public key that `unwrap_verify` accepts
on the same buffer, and both calls return the same public and masked
payloads (and the same final sponge state). -/
theorem spec_c5_recover_pin (lookup : List Trit → Option Spongos) (msgid : MsgId)
    (slink : Spongos) (pp mp : Trytes) (sk : PrivateKey) (s : Spongos)
    (hm : msgid.id.length = MSGID_SIZE)
    (hp : pp.size % 3 = 0) (hmp : mp.size % 3 = 0)
    (hpb : pp.size / 3 < 3 ^ sizeW) (hmb : mp.size / 3 < 3 ^ sizeW)
    (hd : sk.d < 3 ^ dW) (hskn : sk.skn < 3 ^ sknW) (hleaf : sk.skn < 2 ^ sk.d)
    (hl : lookup msgid.id = some slink) :
    ∃ sw out, SignedPacket.wrap msgid slink pp mp sk s = some (sw, out) ∧
      ∃ su, SignedPacket.unwrap_recover lookup s out =
          .ok ((sk.public_key, pp, mp), su, []) ∧
        SignedPacket.unwrap_verify lookup sk.public_key s out =
          .ok ((pp, mp), su, []) := by
  refine ⟨(SignedPacket.wrapOut msgid slink pp mp sk s).1,
    (SignedPacket.wrapOut msgid slink pp mp sk s).2, ?_,
    (SignedPacket.wrapOut msgid slink pp mp sk s).1, ?_, ?_⟩
  · rw [SignedPacket.wrap, if_pos ⟨hp, hmp⟩]
  · have h := unwrap_recover_pipeline lookup msgid slink pp mp sk s []
      hm hp hmp hpb hmb hd hskn hleaf hl
    simpa using h
  · have h := unwrap_verify_pipeline lookup msgid slink pp mp sk s []
      hm hp hmp hpb hmb hd hskn hleaf hl
    simpa using h

/-- Witness for C5 at the concrete witness message. -/
theorem spec_c5_recover_pin_witness :
    ∃ sw out, SignedPacket.wrap msgidW Spongos.init ppW mpW skW Spongos.init =
        some (sw, out) ∧
      ∃ su, SignedPacket.unwrap_recover lookupW Spongos.init out =
          .ok ((skW.public_key, ppW, mpW), su, []) ∧
        SignedPacket.unwrap_verify lookupW skW.public_key Spongos.init out =
          .ok ((ppW, mpW), su, []) :=
  spec_c5_recover_pin lookupW msgidW Spongos.init ppW mpW skW Spongos.init
    (by decide) (by decide) (by decide) (by decide) (by decide)
    (by decide) (by decide) (by decide) (by decide)

/-- C6: under the precondition that both payload lengths are whole trytes,
neither of `wrap`'s internal assertions fires (no panic: the guarded result
is not `none`), and the postcondition holds: the emitted trits fill a
`sizeof`-allocated output buffer exactly. -/
theorem spec_c6_wrap_assertions (msgid : MsgId) (slink : Spongos) (pp mp : Trytes)
    (sk : PrivateKey) (s : Spongos)
    (hm : msgid.id.length = MSGID_SIZE)
    (hp : pp.size % 3 = 0) (hmp : mp.size % 3 = 0) :
    SignedPacket.wrap msgid slink pp mp sk s ≠ none ∧
      ∀ o, SignedPacket.wrap msgid slink pp mp sk s = some o →
        o.2.length = SignedPacket.sizeof (pp.size / 3) (mp.size / 3) sk := by
  constructor
  · rw [SignedPacket.wrap, if_pos ⟨hp, hmp⟩]
    exact Option.some_ne_none _
  · intro o ho
    rw [SignedPacket.wrap, if_pos ⟨hp, hmp⟩] at ho
    cases ho
    exact wrapOut_length msgid slink pp mp sk s hm hp hmp

/-- Witness for C6 at the concrete witness message. -/
theorem spec_c6_wrap_assertions_witness :
    SignedPacket.wrap msgidW Spongos.init ppW mpW skW Spongos.init ≠ none ∧
      ∀ o, SignedPacket.wrap msgidW Spongos.init ppW mpW skW Spongos.init = some o →
        o.2.length = SignedPacket.sizeof (ppW.size / 3) (mpW.size / 3) skW :=
  spec_c6_wrap_assertions msgidW Spongos.init ppW mpW skW Spongos.init
    (by decide) (by decide) (by decide)

/-- C7: an absorb unwrap step on a buffer with fewer remaining trits than it
needs (fewer than 3 for `unwrap3`, fewer than the target size for `unwrapn`)
fails with the `Eof` error — the spec's `EndOfBuffer` — instead of reading
past the provided region. -/
theorem spec_c7_eof (s : Spongos) (b : List Trit) (n : Nat) :
    (b.length < 3 → WrapAbsorb.unwrap3 s b = .err .Eof) ∧
      (b.length < n → WrapAbsorb.unwrapn s n b = .err .Eof) := by
  constructor
  · intro h3
    have h1 : ¬ (3 ≤ b.length) := by omega
    simp [WrapAbsorb.unwrap3, readTrits, h1, Result.bind_err]
  · intro hn
    have h2 : ¬ (n ≤ b.length) := by omega
    simp [WrapAbsorb.unwrapn, readTrits, h2, Result.bind_err]

/-- Witness for C7: `unwrap3` on the empty buffer, and `unwrapn` on a 5-trit
buffer with a 10-trit target. -/
theorem spec_c7_eof_witness :
    WrapAbsorb.unwrap3 Spongos.init [] = .err .Eof ∧
      WrapAbsorb.unwrapn Spongos.init 10 (List.replicate 5 0) = .err .Eof :=
  ⟨(spec_c7_eof Spongos.init [] 10).1 (by decide),
   (spec_c7_eof Spongos.init (List.replicate 5 0) 10).2 (by decide)⟩

/-- C8: the absorb wrap operation writes the value's trits to the wire in
clear — the emitted trits are exactly the value's encoding, independent of
the sponge state; the sponge is only mixed as a side effect. -/
theorem spec_c8_absorb_clear (s s' : Spongos) (d : Trint3) (t : List Trit) :
    (WrapAbsorb.wrap3 s d).2 = put3 d ∧
      (WrapAbsorb.wrapn s t).2 = t ∧
      (WrapAbsorb.wrap3 s d).2 = (WrapAbsorb.wrap3 s' d).2 ∧
      (WrapAbsorb.wrapn s t).2 = (WrapAbsorb.wrapn s' t).2 ∧
      (WrapAbsorb.wrap3 s d).1 = s.absorb (put3 d) ∧
      (WrapAbsorb.wrapn s t).1 = s.absorb t :=
  ⟨rfl, rfl, rfl, rfl, rfl, rfl⟩

/-- C9: `wrap_absorb_external` and `unwrap_absorb_external` take no buffer
argument, so they consume and produce zero wire trits, and both perform the
identical sponge transition: absorbing the value's trit slice. -/
theorem spec_c9_absorb_external (s : Spongos) (x : List Trit) :
    wrap_absorb_external x s = unwrap_absorb_external x s ∧
      wrap_absorb_external x s = s.absorb x :=
  ⟨rfl, rfl⟩

/-- C10: if the default `Absorb::unwrap_absorb` method fails (the
implementor's `unwrap_absorb_sized` returns an error), the target value
being unwrapped into is left unchanged — it is only overwritten on
success. -/
theorem spec_c10_err_keeps_target {α : Type}
    (sized : Spongos → List Trit → Result α × Spongos × List Trit)
    (self : α) (s : Spongos) (b : List Trit) (e : Err)
    (h : (unwrap_absorb sized self s b).1 = .err e) :
    (unwrap_absorb sized self s b).2.1 = self := by
  unfold unwrap_absorb at h ⊢
  rcases hs : sized s b with ⟨r, s1, b1⟩
  rw [hs] at h
  cases r with
  | ok v => exact Result.noConfusion h
  | err e2 => rfl

/-- Witness for C10 with an always-failing sized unwrapper. -/
theorem spec_c10_err_keeps_target_witness :
    (unwrap_absorb sizedW 7 Spongos.init []).1 = .err .Eof ∧
      (unwrap_absorb sizedW 7 Spongos.init []).2.1 = 7 :=
  ⟨rfl, spec_c10_err_keeps_target sizedW 7 Spongos.init [] .Eof rfl⟩
